import Mathlib

/-!
# Verification of the 3MF workspace reader's reconciliation logic

Shallow embedding of `plugins/3MFReader/ThreeMFWorkspaceReader.py`:
the conflict-detection pass (`preRead`), the resolution-strategy
defaulting, the merge/write pass of `read` with its rollback discipline,
the legacy container-id-list upgrade, and the longest-prefix child
material resolution (`_replaceStackMaterialWithNew`).

Python strings (container identities) are embedded as `List Char`;
container contents (what `deserialize` produces and `__eq__` compares)
are abstracted to an opaque payload type with decidable equality.
-/

namespace ThreeMF

/-- A container/stack identity (a Python string). -/
abbrev Id := List Char

/-- Abstract deserialized container content; equality models the
`InstanceContainer.__eq__` field-for-field comparison. -/
abbrev Content := List Char

/-- `self._old_empty_profile_id_dict.get(container_id, container_id)`:
the dict `{"empty_material": "empty", "empty_variant": "empty"}` built in
`__init__` (line 65), applied with the identity itself as default. -/
def oldEmptyProfileIdDict (cid : Id) : Id :=
  if cid = "empty_material".toList ∨ cid = "empty_variant".toList then "empty".toList else cid

/-!
## Machine-stack conflict detection (`preRead`, lines 254–303)

A live stack is modelled by the identities of its container slots,
`liveSlot : Nat → Id` standing for `global_stack.getContainer(index).getId()`.
-/

/-- The slot-comparison loop of `preRead` (lines 263–268 and 298–303):
`for index, container_id in enumerate(id_list): ...` starting at index `n`,
remapping legacy empty identities, setting the conflict flag and breaking
at the first mismatching slot. -/
def slotConflictLoop (liveSlot : Nat → Id) : Nat → List Id → Bool
  | _, [] => false
  | n, cid :: rest =>
    if liveSlot n ≠ oldEmptyProfileIdDict cid then true
    else slotConflictLoop liveSlot (n + 1) rest

/-- The machine-stack part of `preRead` (lines 257–268): `stacks` found by
identity sets the `containers_found_dict["machine"]` flag; the conflict
flag is computed from the slot loop only when a live stack was found.
Returns `(found, machine_conflict)`. -/
def inspectMachineStack (found : Bool) (liveSlot : Nat → Id) (idList : List Id) :
    Bool × Bool :=
  if found then (true, slotConflictLoop liveSlot 0 idList) else (false, false)

/-- One serialized extruder stack file of the bundle: its declared
`metadata.position` and its parsed container identity list. -/
structure ExtruderFile where
  position : String
  idList : List Id

/-- The per-extruder conflict loop of `preRead` (lines 273–303), threading
the current `machine_conflict` value: a position absent from
`global_stack.extruders` sets the flag to `False` and breaks; otherwise the
slot loop against the live extruder at that position may set it to `True`
and the outer loop continues with the next file. -/
def extruderConflictLoop (extruders : String → Option (Nat → Id)) :
    List ExtruderFile → Bool → Bool
  | [], conflict => conflict
  | f :: rest, conflict =>
    match extruders f.position with
    | none => false
    | some liveSlot =>
      extruderConflictLoop extruders rest (conflict || slotConflictLoop liveSlot 0 f.idList)

/-- The whole `machine_conflict` computation of `preRead` (lines 249–303):
the machine-stack check followed, only when the stack was found and did not
conflict, by the extruder check. -/
def machineInspection (found : Bool) (liveSlot : Nat → Id) (globalIdList : List Id)
    (extruders : String → Option (Nat → Id)) (extruderFiles : List ExtruderFile) : Bool :=
  let mc := (inspectMachineStack found liveSlot globalIdList).2
  if found && !mc then extruderConflictLoop extruders extruderFiles mc else mc

/-- Characterization of the slot loop: it reports a conflict iff some slot
of the imported list differs (after legacy remapping) from the live slot at
the corresponding index. -/
theorem slotConflictLoop_eq_decide (liveSlot : Nat → Id) (n : Nat) (ids : List Id) :
    slotConflictLoop liveSlot n ids =
      decide (∃ i : Fin ids.length, liveSlot (n + i.val) ≠ oldEmptyProfileIdDict (ids.get i)) := by
  induction ids generalizing n with
  | nil => simp [slotConflictLoop]
  | cons c rest ih =>
    rw [slotConflictLoop]
    by_cases h : liveSlot n ≠ oldEmptyProfileIdDict c
    · rw [if_pos h]
      symm
      simp only [decide_eq_true_eq]
      exact ⟨⟨0, Nat.succ_pos _⟩, by simpa using h⟩
    · rw [if_neg h, ih (n + 1)]
      rw [decide_eq_decide]
      constructor
      · rintro ⟨i, hi⟩
        refine ⟨i.succ, ?_⟩
        simpa [Nat.add_assoc, Nat.add_comm 1 i.val] using hi
      · rintro ⟨i, hi⟩
        rcases i with ⟨⟨⟩ | j, hj⟩
        · exact absurd (by simpa using hi) (by simpa using h)
        · refine ⟨⟨j, by simpa using Nat.lt_of_succ_lt_succ hj⟩, ?_⟩
          simpa [Nat.add_assoc, Nat.add_comm 1 j] using hi

/-- C3: for a bundle whose global stack identity matches a live machine
stack, the machine conflict flag equals the slot-by-slot comparison of the
imported slot identities (with `empty_material`/`empty_variant` remapped to
`empty`) against the live stack's container identities: true exactly when
some slot index differs, false when every slot matches; the flag is never
set by the identity match itself (a found stack with all slots matching
yields a false flag). -/
theorem machine_conflict_slotwise (liveSlot : Nat → Id) (idList : List Id) :
    (inspectMachineStack true liveSlot idList).2 =
      decide (∃ i : Fin idList.length,
        liveSlot i.val ≠ oldEmptyProfileIdDict (idList.get i)) := by
  show slotConflictLoop liveSlot 0 idList = _
  rw [slotConflictLoop_eq_decide]
  rw [decide_eq_decide]
  constructor
  · rintro ⟨i, hi⟩; exact ⟨i, by simpa using hi⟩
  · rintro ⟨i, hi⟩; exact ⟨i, by simpa using hi⟩

/-- C4: if any extruder file's declared position is absent from the live
machine's extruder map, the extruder conflict loop yields `false` whatever
the conflict value accumulated so far. -/
theorem extruderConflictLoop_missing_position (extruders : String → Option (Nat → Id))
    (files : List ExtruderFile)
    (hmiss : ∃ f ∈ files, extruders f.position = none) :
    ∀ c : Bool, extruderConflictLoop extruders files c = false := by
  induction files with
  | nil => rcases hmiss with ⟨f, hf, _⟩; cases hf
  | cons g rest ih =>
    intro c
    rcases hmiss with ⟨f, hf, hnone⟩
    rcases List.mem_cons.mp hf with rfl | hmem
    · rw [extruderConflictLoop, hnone]
    · rw [extruderConflictLoop]
      cases hg : extruders g.position with
      | none => rfl
      | some liveSlot => exact ih ⟨f, hmem, hnone⟩ _

/-- C4: during inspection, when the live machine stack was found and its
own slots all matched, a bundle extruder whose `metadata.position` is
absent from the live machine's extruder position map makes the final
machine conflict flag `false` for the whole inspection, no matter what the
other extruder files contain. -/
theorem preRead_missing_position_means_no_conflict (liveSlot : Nat → Id)
    (globalIdList : List Id) (extruders : String → Option (Nat → Id))
    (extruderFiles : List ExtruderFile)
    (hmatch : (inspectMachineStack true liveSlot globalIdList).2 = false)
    (hmiss : ∃ f ∈ extruderFiles, extruders f.position = none) :
    machineInspection true liveSlot globalIdList extruders extruderFiles = false := by
  unfold machineInspection
  rw [hmatch]
  simpa using extruderConflictLoop_missing_position extruders extruderFiles hmiss false

/-- Witness for C4: a concrete bundle with two extruder files, the first
conflicting on its first slot, the second at a position unknown to the
live machine: the inspection still reports no machine conflict. -/
theorem preRead_missing_position_means_no_conflict_witness :
    machineInspection true
      (fun _ => "live".toList) ["live".toList]
      (fun p => if p = "0" then some (fun _ => "other".toList) else none)
      [⟨"0", ["mismatch".toList]⟩, ⟨"7", ["whatever".toList]⟩] = false := by
  apply preRead_missing_position_means_no_conflict
  · decide
  · exact ⟨⟨"7", ["whatever".toList]⟩, by simp, by simp⟩

/-!
## Instance-container inspection (`preRead`, lines 203–244)

One deserialized instance container file of the bundle: its identity, its
`metadata.type` entry, and its deserialized content. The live registry is
`Id → Option Content`, standing for `findInstanceContainers(id = ...)`.
-/

structure InstInspectFile where
  id : Id
  type : String
  content : Content

/-- The four flags produced by the instance-container loop:
`containers_found_dict["quality_changes"]`, `quality_changes_conflict`,
`containers_found_dict["definition_changes"]`, `definition_changes_conflict`. -/
structure ChangesFlags where
  qcFound : Bool
  qcConflict : Bool
  dcFound : Bool
  dcConflict : Bool
deriving DecidableEq

/-- One iteration of the instance-container loop (lines 212–233): for a
`quality_changes`/`definition_changes` container whose identity has a live
record, set the found flag, and set the conflict flag when the live record
compares unequal to the deserialized import. Other container types leave
the four flags unchanged. -/
def inspectInstanceStep (registry : Id → Option Content) (acc : ChangesFlags)
    (f : InstInspectFile) : ChangesFlags :=
  if f.type = "quality_changes" then
    match registry f.id with
    | some live => { acc with qcFound := true,
                              qcConflict := acc.qcConflict || decide (live ≠ f.content) }
    | none => acc
  else if f.type = "definition_changes" then
    match registry f.id with
    | some live => { acc with dcFound := true,
                              dcConflict := acc.dcConflict || decide (live ≠ f.content) }
    | none => acc
  else acc

/-- The instance-container inspection loop of `preRead` (lines 203–244),
all flags starting `False`. -/
def inspectInstanceContainers (registry : Id → Option Content)
    (files : List InstInspectFile) : ChangesFlags :=
  files.foldl (inspectInstanceStep registry) ⟨false, false, false, false⟩

/-- Per-file conflict contribution for type `t`. -/
def changesConflictsWith (registry : Id → Option Content) (t : String)
    (f : InstInspectFile) : Bool :=
  f.type = t && match registry f.id with
                | some live => decide (live ≠ f.content)
                | none => false

/-- Per-file found contribution for type `t`. -/
def changesFoundWith (registry : Id → Option Content) (t : String)
    (f : InstInspectFile) : Bool :=
  f.type = t && (registry f.id).isSome

/-- A single file's conflict contribution, unfolded. -/
theorem changesConflictsWith_eq_true (registry : Id → Option Content) (t : String)
    (f : InstInspectFile) :
    changesConflictsWith registry t f = true ↔
      f.type = t ∧ ∃ live, registry f.id = some live ∧ live ≠ f.content := by
  unfold changesConflictsWith
  cases h : registry f.id with
  | none => simp
  | some live => simp

/-- A single file's found contribution, unfolded. -/
theorem changesFoundWith_eq_true (registry : Id → Option Content) (t : String)
    (f : InstInspectFile) :
    changesFoundWith registry t f = true ↔ f.type = t ∧ (registry f.id).isSome := by
  unfold changesFoundWith
  simp

/-- The fold accumulates each flag as a disjunction over the files. -/
theorem inspectInstance_foldl_spec (registry : Id → Option Content)
    (files : List InstInspectFile) (acc : ChangesFlags) :
    files.foldl (inspectInstanceStep registry) acc =
      ⟨acc.qcFound || files.any (changesFoundWith registry "quality_changes"),
       acc.qcConflict || files.any (changesConflictsWith registry "quality_changes"),
       acc.dcFound || files.any (changesFoundWith registry "definition_changes"),
       acc.dcConflict || files.any (changesConflictsWith registry "definition_changes")⟩ := by
  induction files generalizing acc with
  | nil => simp
  | cons f rest ih =>
    rw [List.foldl_cons, ih]
    simp only [List.any_cons]
    unfold inspectInstanceStep changesFoundWith changesConflictsWith
    by_cases hq : f.type = "quality_changes"
    · have hd : f.type ≠ "definition_changes" := by rw [hq]; decide
      cases hreg : registry f.id with
      | none => simp [hq, hd, hreg]
      | some live => simp [hq, hd, hreg, Bool.or_assoc, Bool.or_comm, Bool.or_left_comm]
    · by_cases hd : f.type = "definition_changes"
      · cases hreg : registry f.id with
        | none => simp [hq, hd, hreg]
        | some live => simp [hq, hd, hreg, Bool.or_assoc, Bool.or_comm, Bool.or_left_comm]
      · simp [hq, hd]

/-- C5: for the imported `quality_changes` and `definition_changes`
profiles, the conflict flag of the inspection is true iff some imported
profile of that type has a live record with the same identity whose content
compares unequal to the deserialized import; the found ("already exists")
flag is true iff some such live record exists at all — so a same-identity
live record that compares equal contributes to the found flag but leaves
the conflict flag false. -/
theorem preRead_changes_conflict_iff (registry : Id → Option Content)
    (files : List InstInspectFile) :
    ((inspectInstanceContainers registry files).qcConflict = true ↔
      ∃ f ∈ files, f.type = "quality_changes" ∧
        ∃ live, registry f.id = some live ∧ live ≠ f.content) ∧
    ((inspectInstanceContainers registry files).dcConflict = true ↔
      ∃ f ∈ files, f.type = "definition_changes" ∧
        ∃ live, registry f.id = some live ∧ live ≠ f.content) ∧
    ((inspectInstanceContainers registry files).qcFound = true ↔
      ∃ f ∈ files, f.type = "quality_changes" ∧ (registry f.id).isSome) ∧
    ((inspectInstanceContainers registry files).dcFound = true ↔
      ∃ f ∈ files, f.type = "definition_changes" ∧ (registry f.id).isSome) := by
  unfold inspectInstanceContainers
  rw [inspectInstance_foldl_spec]
  simp only [Bool.false_or, List.any_eq_true]
  refine ⟨?_, ?_, ?_, ?_⟩
  · exact exists_congr fun f => and_congr_right fun _ => changesConflictsWith_eq_true _ _ f
  · exact exists_congr fun f => and_congr_right fun _ => changesConflictsWith_eq_true _ _ f
  · exact exists_congr fun f => and_congr_right fun _ => changesFoundWith_eq_true _ _ f
  · exact exists_congr fun f => and_congr_right fun _ => changesFoundWith_eq_true _ _ f

/-!
## Material inspection (`preRead`, lines 183–191)

`existsLive` stands for `findContainersMetadata(id = ...)` being non-empty
and `readOnly` for `isReadOnly(container_id)`. The loop carries the pair
`(containers_found_dict["material"], material_conflict)`.
-/

/-- One iteration of the material loop: an existing identity sets the found
flag; only a non-read-only existing identity sets the conflict flag. -/
def inspectMaterialStep (existsLive readOnly : Id → Bool) (acc : Bool × Bool)
    (m : Id) : Bool × Bool :=
  if existsLive m then (true, acc.2 || !readOnly m) else acc

/-- The material inspection loop of `preRead` (lines 183–191), flags
starting `False`. -/
def inspectMaterials (existsLive readOnly : Id → Bool) (files : List Id) : Bool × Bool :=
  files.foldl (inspectMaterialStep existsLive readOnly) (false, false)

/-- The material fold accumulates both flags as disjunctions. -/
theorem inspectMaterials_foldl_spec (existsLive readOnly : Id → Bool)
    (files : List Id) (acc : Bool × Bool) :
    files.foldl (inspectMaterialStep existsLive readOnly) acc =
      (acc.1 || files.any existsLive,
       acc.2 || files.any (fun m => existsLive m && !readOnly m)) := by
  induction files generalizing acc with
  | nil => simp
  | cons m rest ih =>
    rw [List.foldl_cons, ih]
    simp only [List.any_cons]
    unfold inspectMaterialStep
    by_cases hm : existsLive m = true
    · simp [hm, Bool.or_assoc, Bool.or_comm, Bool.or_left_comm]
    · simp only [Bool.not_eq_true] at hm
      simp [hm]

/-- C6: the material conflict flag of inspection is true iff some imported
material's identity has a live record that is not read-only; the material
found flag is true iff some imported material's identity has a live record
at all — so a read-only live twin raises the found flag but never the
conflict flag. -/
theorem preRead_material_conflict_iff (existsLive readOnly : Id → Bool)
    (files : List Id) :
    ((inspectMaterials existsLive readOnly files).2 = true ↔
      ∃ m ∈ files, existsLive m = true ∧ readOnly m = false) ∧
    ((inspectMaterials existsLive readOnly files).1 = true ↔
      ∃ m ∈ files, existsLive m = true) := by
  unfold inspectMaterials
  rw [inspectMaterials_foldl_spec]
  constructor
  · simp
  · simp

/-!
## Resolution-strategy defaulting (`preRead`, lines 137–139 and 370–374)

`self._resolve_strategies` holds, per decidable category, either a strategy
string supplied by the decision source or `None`; `containers_found_dict`
holds the per-category "already exists" flags. Both dictionaries carry the
keys `machine`, `material` and `quality_changes` (line 137), so the
`key not in containers_found_dict` guard of line 372 never fires for them.
-/

structure ResolveStrategies where
  machine : Option String
  material : Option String
  quality_changes : Option String
deriving DecidableEq

structure ContainersFound where
  machine : Bool
  material : Bool
  quality_changes : Bool
deriving DecidableEq

/-- One iteration of the defaulting loop (lines 371–374): a supplied
strategy is kept; an unset one becomes `"override"` when the category's
found flag is set and `"new"` otherwise. -/
def defaultStrategy (found : Bool) (s : Option String) : Option String :=
  match s with
  | some st => some st
  | none => some (if found then "override" else "new")

/-- The whole defaulting loop over the three decidable categories. -/
def applyDefaultStrategies (rs : ResolveStrategies) (cf : ContainersFound) :
    ResolveStrategies :=
  { machine := defaultStrategy cf.machine rs.machine,
    material := defaultStrategy cf.material rs.material,
    quality_changes := defaultStrategy cf.quality_changes rs.quality_changes }

/-- C7: after the defaulting step each of the three categories holds the
externally supplied strategy verbatim when one was supplied, and otherwise
`"override"` exactly when the category's "already exists" flag was
recorded, `"new"` when it was not. -/
theorem resolve_strategies_defaulting (rs : ResolveStrategies) (cf : ContainersFound) :
    applyDefaultStrategies rs cf =
      { machine := some (rs.machine.getD (if cf.machine then "override" else "new")),
        material := some (rs.material.getD (if cf.material then "override" else "new")),
        quality_changes :=
          some (rs.quality_changes.getD (if cf.quality_changes then "override" else "new")) } := by
  unfold applyDefaultStrategies defaultStrategy
  rcases rs with ⟨m, mat, qc⟩
  cases m <;> cases mat <;> cases qc <;> rfl

/-!
## Legacy container-id-list upgrade (`_getContainerIdListFromSerialized`, lines 1084–1103)

The parsing of the INI text into the raw identity list is done by the
external `configparser`; the upgrade applied to the parsed list is embedded
here: `container_ids.insert(5, "empty")` when the list has exactly 6
entries (Python's `list.insert` places the new element before index 5). -/
def upgradeContainerIdList (container_ids : List Id) : List Id :=
  if container_ids.length = 6 then
    container_ids.take 5 ++ "empty".toList :: container_ids.drop 5
  else container_ids

/-- C9: a parsed container-identity list with exactly 6 entries is upgraded
to 7 entries: the reserved `"empty"` identity sits at index 5, the first
five original entries keep their indices, and the original sixth entry
moves to index 6. -/
theorem legacy_six_slot_upgrade (a b c d e f : Id) :
    upgradeContainerIdList [a, b, c, d, e, f] =
      [a, b, c, d, e, "empty".toList, f] := by
  rfl

/-!
## Longest-prefix child-material resolution (`_replaceStackMaterialWithNew`, lines 1022–1073)

`old_new_material_dict` maps each old parent material identity minted in
this import to the identity of its newly created parent container
(`each_material.getId()`); it is embedded as an association list in the
dict's insertion order. `registryHas` stands for
`findInstanceContainers(id = new_material_id, type = "material")` being
non-empty. The function returns the identity the stack's material holds
after the call (the stack keeps its old material when the resolution is
skipped).
-/

/-- One iteration of the best-match loop (lines 1052–1058), carrying
`(best_matching_old_material_id, best_matching_old_meterial_prefix_length)`
with the length a Python int starting at `-1`. -/
def bestMatchStep (old_material_id_in_stack : Id) (acc : Option Id × Int)
    (old_parent_material_id : Id) : Option Id × Int :=
  if (old_parent_material_id.length : Int) < acc.2 then acc
  else if old_parent_material_id.length ≤ old_material_id_in_stack.length then
    if old_parent_material_id =
        old_material_id_in_stack.take old_parent_material_id.length then
      (some old_parent_material_id, (old_parent_material_id.length : Int))
    else acc
  else acc

/-- The best-match loop over all old parent identities of the dict. -/
def findBestMatchingOldMaterial (old_material_id_in_stack : Id) (olds : List Id) :
    Option Id :=
  (olds.foldl (bestMatchStep old_material_id_in_stack) (none, -1)).1

/-- `_replaceStackMaterialWithNew` (lines 1022–1073): the identity the
stack's material carries after the call. No matching parent, or no registry
container at the substituted identity, leaves the stack's material
unchanged. -/
def replaceStackMaterialWithNew (old_material_id_in_stack : Id)
    (old_new_material_dict : List (Id × Id)) (registryHas : Id → Bool) : Id :=
  match findBestMatchingOldMaterial old_material_id_in_stack
      (old_new_material_dict.map Prod.fst) with
  | none => old_material_id_in_stack
  | some best =>
    match old_new_material_dict.lookup best with
    | none => old_material_id_in_stack
    | some newParent =>
      let new_material_id :=
        newParent ++ old_material_id_in_stack.drop best.length
      if registryHas new_material_id then new_material_id
      else old_material_id_in_stack

/-- Invariant of the best-match loop: the accumulator is either the initial
state with no prefix seen yet, or the longest prefix among the processed
parents. -/
def BestInv (mat : Id) (processed : List Id) (acc : Option Id × Int) : Prop :=
  (acc = (none, -1) ∧ ∀ q ∈ processed, ¬ q <+: mat) ∨
  (∃ p, acc = (some p, (p.length : Int)) ∧ p ∈ processed ∧ p <+: mat ∧
    ∀ q ∈ processed, q <+: mat → q.length ≤ p.length)

theorem bestMatchStep_inv (mat x : Id) (processed : List Id) (acc : Option Id × Int)
    (h : BestInv mat processed acc) :
    BestInv mat (processed ++ [x]) (bestMatchStep mat acc x) := by
  have hmem : ∀ q, q ∈ processed ++ [x] ↔ q ∈ processed ∨ q = x := by
    intro q; simp
  by_cases hpre : x <+: mat
  · have hxlen : x.length ≤ mat.length := hpre.length_le
    have hxtake : x = mat.take x.length := List.prefix_iff_eq_take.mp hpre
    rcases h with ⟨rfl, hnone⟩ | ⟨p, rfl, hp, hppre, hmax⟩
    · have h1 : ¬ ((x.length : Int) < ((none, -1) : Option Id × Int).2) := by
        show ¬ ((x.length : Int) < -1)
        omega
      unfold bestMatchStep
      rw [if_neg h1, if_pos hxlen, if_pos hxtake]
      refine Or.inr ⟨x, rfl, ?_, hpre, ?_⟩
      · exact (hmem x).mpr (Or.inr rfl)
      · intro q hq hqpre
        rcases (hmem q).mp hq with hq1 | rfl
        · exact absurd hqpre (hnone q hq1)
        · exact Nat.le_refl _
    · by_cases hlt : (x.length : Int) < ((p.length : Nat) : Int)
      · unfold bestMatchStep
        rw [if_pos hlt]
        refine Or.inr ⟨p, rfl, (hmem p).mpr (Or.inl hp), hppre, ?_⟩
        intro q hq hqpre
        rcases (hmem q).mp hq with hq1 | rfl
        · exact hmax q hq1 hqpre
        · omega
      · unfold bestMatchStep
        rw [if_neg hlt, if_pos hxlen, if_pos hxtake]
        refine Or.inr ⟨x, rfl, (hmem x).mpr (Or.inr rfl), hpre, ?_⟩
        intro q hq hqpre
        rcases (hmem q).mp hq with hq1 | rfl
        · exact Nat.le_trans (hmax q hq1 hqpre) (by omega)
        · exact Nat.le_refl _
  · have hstep : bestMatchStep mat acc x = acc := by
      unfold bestMatchStep
      by_cases h1 : (x.length : Int) < acc.2
      · rw [if_pos h1]
      · rw [if_neg h1]
        by_cases h2 : x.length ≤ mat.length
        · rw [if_pos h2]
          have h3 : ¬ (x = mat.take x.length) := fun hc =>
            hpre (List.prefix_iff_eq_take.mpr hc)
          rw [if_neg h3]
        · rw [if_neg h2]
    rw [hstep]
    rcases h with ⟨rfl, hnone⟩ | ⟨p, rfl, hp, hppre, hmax⟩
    · refine Or.inl ⟨rfl, ?_⟩
      intro q hq
      rcases (hmem q).mp hq with hq1 | rfl
      · exact hnone q hq1
      · exact hpre
    · refine Or.inr ⟨p, rfl, (hmem p).mpr (Or.inl hp), hppre, ?_⟩
      intro q hq hqpre
      rcases (hmem q).mp hq with hq1 | rfl
      · exact hmax q hq1 hqpre
      · exact absurd hqpre hpre

theorem bestMatch_foldl_inv (mat : Id) (olds : List Id) :
    ∀ (processed : List Id) (acc : Option Id × Int), BestInv mat processed acc →
      BestInv mat (processed ++ olds) (olds.foldl (bestMatchStep mat) acc) := by
  induction olds with
  | nil => intro processed acc h; simpa using h
  | cons x rest ih =>
    intro processed acc h
    have h2 := ih (processed ++ [x]) (bestMatchStep mat acc x)
      (bestMatchStep_inv mat x processed acc h)
    simpa [List.append_assoc] using h2

/-- The best-match loop's result, characterized: `none` exactly when no
parent identity is a prefix of the stack's material identity, and otherwise
a parent that is a prefix of maximal length among all parents. -/
theorem findBestMatchingOldMaterial_spec (mat : Id) (olds : List Id) :
    (findBestMatchingOldMaterial mat olds = none ∧ ∀ q ∈ olds, ¬ q <+: mat) ∨
    (∃ p, findBestMatchingOldMaterial mat olds = some p ∧ p ∈ olds ∧ p <+: mat ∧
      ∀ q ∈ olds, q <+: mat → q.length ≤ p.length) := by
  have h := bestMatch_foldl_inv mat olds [] (none, -1) (Or.inl ⟨rfl, by simp⟩)
  simp only [List.nil_append] at h
  unfold findBestMatchingOldMaterial
  rcases h with ⟨heq, hnone⟩ | ⟨p, heq, hp, hppre, hmax⟩
  · exact Or.inl ⟨by rw [heq], hnone⟩
  · exact Or.inr ⟨p, by rw [heq], hp, hppre, hmax⟩

/-- C8: the child-material resolver selects, among the old parent material
identities minted in this import, one that is an exact prefix of the
stack's material identity and of maximal length among all such prefixes;
the stack's new material identity is that parent's new identity followed by
the unmatched remainder of the old identity, provided the registry has a
container at that identity; when no parent is a prefix, or the candidate is
not in the registry, the stack's material is unchanged. -/
theorem replaceStackMaterialWithNew_spec (mat : Id)
    (dict : List (Id × Id)) (registryHas : Id → Bool) :
    ((∀ q ∈ dict.map Prod.fst, ¬ q <+: mat) →
      replaceStackMaterialWithNew mat dict registryHas = mat) ∧
    (∀ p, findBestMatchingOldMaterial mat (dict.map Prod.fst) = some p →
      p ∈ dict.map Prod.fst ∧ p <+: mat ∧
        (∀ q ∈ dict.map Prod.fst, q <+: mat → q.length ≤ p.length) ∧
        ∀ newParent, dict.lookup p = some newParent →
          replaceStackMaterialWithNew mat dict registryHas =
            (if registryHas (newParent ++ mat.drop p.length) then
              newParent ++ mat.drop p.length
            else mat)) := by
  constructor
  · intro hno
    rcases findBestMatchingOldMaterial_spec mat (dict.map Prod.fst) with
      ⟨heq, _⟩ | ⟨p, heq, hp, hppre, _⟩
    · unfold replaceStackMaterialWithNew
      rw [heq]
    · exact absurd hppre (hno p hp)
  · intro p hfind
    rcases findBestMatchingOldMaterial_spec mat (dict.map Prod.fst) with
      ⟨heq, _⟩ | ⟨p2, heq, hp, hppre, hmax⟩
    · rw [hfind] at heq; cases heq
    · rw [hfind] at heq
      injection heq with heq2
      subst heq2
      refine ⟨hp, hppre, hmax, ?_⟩
      intro newParent hlook
      simp only [replaceStackMaterialWithNew, hfind, hlook]

/-- Witness for C8, the spec's own example: with parents `"PLA"` and
`"PLA Premium"` both minted (mapped to `"PLA #2"` and `"PLA Premium #2"`)
and stack material `"PLA Premium_um3_aa04"`, the resolver selects the
longer parent `"PLA Premium"` and rewrites the stack's material to
`"PLA Premium #2_um3_aa04"`. -/
theorem replaceStackMaterialWithNew_spec_witness :
    findBestMatchingOldMaterial "PLA Premium_um3_aa04".toList
        [("PLA".toList : Id), "PLA Premium".toList] = some "PLA Premium".toList ∧
    replaceStackMaterialWithNew "PLA Premium_um3_aa04".toList
        [("PLA".toList, "PLA #2".toList), ("PLA Premium".toList, "PLA Premium #2".toList)]
        (fun i => i = "PLA Premium #2_um3_aa04".toList) =
      "PLA Premium #2_um3_aa04".toList := by
  have hfind : findBestMatchingOldMaterial "PLA Premium_um3_aa04".toList
      [("PLA".toList : Id), "PLA Premium".toList] = some "PLA Premium".toList := by
    decide
  refine ⟨hfind, ?_⟩
  have h := (replaceStackMaterialWithNew_spec "PLA Premium_um3_aa04".toList
      [("PLA".toList, "PLA #2".toList), ("PLA Premium".toList, "PLA Premium #2".toList)]
      (fun i => i = "PLA Premium #2_um3_aa04".toList)).2
      "PLA Premium".toList (by simpa using hfind)
  have h3 := h.2.2.2 "PLA Premium #2".toList (by decide)
  rw [h3]
  decide

/-!
## Machine-stack override (`read`, lines 662–674)

The live machine stack is modelled by its identity and its metadata map
(an association list of string entries, as in the serialized
`metadata.*` section). `getMetaDataEntry` is a lookup returning `none`
for a missing key; the guard `if network_authentication_id:` is Python
truthiness, false for both a missing entry and an empty-string value.
-/

abbrev Metadata := List (String × String)

structure GlobalStackModel where
  id : Id
  metadata : Metadata
deriving DecidableEq

/-- Modelled from the spec: `ContainerStack.deserialize` (external
Uranium code) "deserializes imported content over the existing live Stack
in place" — the live object keeps its identity and takes the imported
metadata wholesale. -/
def stackDeserialize (stack : GlobalStackModel) (imported : Metadata) :
    GlobalStackModel :=
  { stack with metadata := imported }

/-- Modelled from the spec: `addMetaDataEntry` (external Uranium code)
adds a metadata entry when no entry with that key exists; an existing
entry is left as it is. -/
def addMetaDataEntry (stack : GlobalStackModel) (k v : String) : GlobalStackModel :=
  if (stack.metadata.lookup k).isSome then stack
  else { stack with metadata := (k, v) :: stack.metadata }

/-- The `override` branch of the global-stack load (lines 662–674): read
the two network-authentication entries off the live stack, deserialize the
imported content over it, then re-add each entry whose saved value was
truthy. -/
def overrideGlobalStack (stack : GlobalStackModel) (imported : Metadata) :
    GlobalStackModel :=
  let network_authentication_id := stack.metadata.lookup "network_authentication_id"
  let network_authentication_key := stack.metadata.lookup "network_authentication_key"
  let stack1 := stackDeserialize stack imported
  let stack2 :=
    match network_authentication_id with
    | some v => if v ≠ "" then addMetaDataEntry stack1 "network_authentication_id" v
                else stack1
    | none => stack1
  match network_authentication_key with
  | some v => if v ≠ "" then addMetaDataEntry stack2 "network_authentication_key" v
              else stack2
  | none => stack2

/-- C2 counterexample: a live stack carrying `network_authentication_id`
with an empty-string value — a present entry, but falsy in Python — loses
it across an override merge whose import does not mention the key, so a
live-only entry present before the merge and absent from the import is
not always preserved. -/
theorem override_auth_empty_value_dropped :
    (({ id := "m1".toList,
        metadata := [("network_authentication_id", "")] } :
          GlobalStackModel).metadata.lookup "network_authentication_id"
        = some "") ∧
    ((overrideGlobalStack
        { id := "m1".toList, metadata := [("network_authentication_id", "")] }
        []).metadata.lookup "network_authentication_id" = none) ∧
    (([] : Metadata).lookup "network_authentication_id" = none) := by
  decide

/-- `addMetaDataEntry` never changes the stack's identity. -/
theorem addMetaDataEntry_id (s : GlobalStackModel) (k v : String) :
    (addMetaDataEntry s k v).id = s.id := by
  unfold addMetaDataEntry
  split_ifs <;> rfl

/-- `addMetaDataEntry` leaves lookups at other keys unchanged. -/
theorem addMetaDataEntry_lookup_ne (s : GlobalStackModel) (k v k2 : String)
    (h : k2 ≠ k) :
    (addMetaDataEntry s k v).metadata.lookup k2 = s.metadata.lookup k2 := by
  unfold addMetaDataEntry
  split_ifs
  · rfl
  · have hb : (k2 == k) = false := by simp [h]
    simp [List.lookup, hb]

/-- `addMetaDataEntry` on an absent key makes it present with the value. -/
theorem addMetaDataEntry_lookup_absent (s : GlobalStackModel) (k v : String)
    (h : s.metadata.lookup k = none) :
    (addMetaDataEntry s k v).metadata.lookup k = some v := by
  unfold addMetaDataEntry
  rw [h]
  simp [List.lookup]

/-- The second restore step of the override (`network_authentication_key`),
as a function of the stack built so far. -/
def restoreAuthKey : Option String → GlobalStackModel → GlobalStackModel
  | some v, s => if v ≠ "" then addMetaDataEntry s "network_authentication_key" v else s
  | none, s => s

/-- The first restore step of the override (`network_authentication_id`). -/
def restoreAuthId : Option String → GlobalStackModel → GlobalStackModel
  | some v, s => if v ≠ "" then addMetaDataEntry s "network_authentication_id" v else s
  | none, s => s

/-- The pipeline of lines 662–674 factored through the two restore steps. -/
theorem overrideGlobalStack_eq (stack : GlobalStackModel) (imported : Metadata) :
    overrideGlobalStack stack imported =
      restoreAuthKey (stack.metadata.lookup "network_authentication_key")
        (restoreAuthId (stack.metadata.lookup "network_authentication_id")
          (stackDeserialize stack imported)) := by
  simp only [overrideGlobalStack]
  cases stack.metadata.lookup "network_authentication_id" <;>
    cases stack.metadata.lookup "network_authentication_key" <;>
      simp only [restoreAuthId, restoreAuthKey]

theorem restoreAuthId_id (saved : Option String) (s : GlobalStackModel) :
    (restoreAuthId saved s).id = s.id := by
  cases saved with
  | none => rfl
  | some v =>
    rw [restoreAuthId]
    split_ifs <;> simp [addMetaDataEntry_id]

theorem restoreAuthKey_id (saved : Option String) (s : GlobalStackModel) :
    (restoreAuthKey saved s).id = s.id := by
  cases saved with
  | none => rfl
  | some v =>
    rw [restoreAuthKey]
    split_ifs <;> simp [addMetaDataEntry_id]

theorem restoreAuthId_lookup_ne (saved : Option String) (s : GlobalStackModel)
    (k2 : String) (h : k2 ≠ "network_authentication_id") :
    (restoreAuthId saved s).metadata.lookup k2 = s.metadata.lookup k2 := by
  cases saved with
  | none => rfl
  | some v =>
    rw [restoreAuthId]
    split_ifs <;> simp [addMetaDataEntry_lookup_ne _ _ _ _ h]

theorem restoreAuthKey_lookup_ne (saved : Option String) (s : GlobalStackModel)
    (k2 : String) (h : k2 ≠ "network_authentication_key") :
    (restoreAuthKey saved s).metadata.lookup k2 = s.metadata.lookup k2 := by
  cases saved with
  | none => rfl
  | some v =>
    rw [restoreAuthKey]
    split_ifs <;> simp [addMetaDataEntry_lookup_ne _ _ _ _ h]

/-- C2 (amended): for an override merge over a live machine stack, the
stack's identity is unchanged, and each network-authentication entry that
is present on the live stack with a non-empty value and absent from the
imported content is still present with its old value after the merge. -/
theorem override_keeps_identity_and_auth (stack : GlobalStackModel)
    (imported : Metadata) (k v : String)
    (hk : k = "network_authentication_id" ∨ k = "network_authentication_key")
    (hlive : stack.metadata.lookup k = some v) (hv : v ≠ "")
    (himp : imported.lookup k = none) :
    (overrideGlobalStack stack imported).id = stack.id ∧
    (overrideGlobalStack stack imported).metadata.lookup k = some v := by
  rw [overrideGlobalStack_eq]
  constructor
  · rw [restoreAuthKey_id, restoreAuthId_id]; rfl
  · rcases hk with rfl | rfl
    · rw [restoreAuthKey_lookup_ne _ _ _ (by decide)]
      rw [hlive, restoreAuthId]
      rw [if_pos hv]
      exact addMetaDataEntry_lookup_absent _ _ _ himp
    · rw [hlive, restoreAuthKey]
      rw [if_pos hv]
      apply addMetaDataEntry_lookup_absent
      rw [restoreAuthId_lookup_ne _ _ _ (by decide)]
      exact himp

/-- Witness for C2 (amended): a live stack with a non-empty
`network_authentication_key` and an import without that key keeps the
entry and its identity across the override merge. -/
theorem override_keeps_identity_and_auth_witness :
    (overrideGlobalStack
        { id := "um3".toList,
          metadata := [("network_authentication_key", "secret")] }
        [("type", "machine")]).id = "um3".toList ∧
    (overrideGlobalStack
        { id := "um3".toList,
          metadata := [("network_authentication_key", "secret")] }
        [("type", "machine")]).metadata.lookup "network_authentication_key"
      = some "secret" := by
  exact override_keeps_identity_and_auth
    { id := "um3".toList, metadata := [("network_authentication_key", "secret")] }
    [("type", "machine")] "network_authentication_key" "secret"
    (Or.inr rfl) (by decide) (by decide) (by decide)

/-!
## User instance-profile merge (`read`, lines 543–590)

A deserialized instance container: its registry identity, its name, its
metadata entries (identity-valued: `id`, `extruder`, `machine`) and its
abstract content, plus the dirty flag.
-/

structure ICModel where
  id : Id
  name : Id
  metadata : List (String × Id)
  content : Content
  dirty : Bool
deriving DecidableEq

/-- Modelled from the spec: `InstanceContainer.deserialize` (external
Uranium code) overwrites the live record's content in place from the
imported bytes; the record keeps its registry identity. -/
def icDeserialize (live imported : ICModel) : ICModel :=
  { live with name := imported.name, metadata := imported.metadata,
              content := imported.content }

/-- Modelled from the spec: `setMetaDataEntry` (external Uranium code)
sets the entry for a key, replacing any existing one. -/
def icSetMetaDataEntry (md : List (String × Id)) (k : String) (v : Id) :
    List (String × Id) :=
  (k, v) :: md.filter (fun p => p.1 ≠ k)

/-- Python truthiness of `getMetaDataEntry(key, None)`: false for a
missing entry and for an empty-string value. -/
def truthyId : Option Id → Bool
  | some v => !v.isEmpty
  | none => false

/-- The strategy-`new` path for a live user profile (lines 571–589): the
`extruder` branch renames by the mapped extruder identity, the `machine`
branch by the freshly minted machine identity; each branch that fires
appends the (single, mutated-in-place) container to `containers_to_add`,
so two fires append the same final object twice. The record's registry
identity itself is not changed (the spec: the record is added under its
original identity). Line 586 calls a misspelled method name; the write
modelled here is its evident intent. -/
def mergeUserNewStrategy (c : ICModel) (extruder_stack_id_map : Id → Id)
    (newId : Id → Id) : List ICModel :=
  let fireExt := truthyId (c.metadata.lookup "extruder")
  let c1 := match c.metadata.lookup "extruder" with
    | some e =>
      if e ≠ [] then
        let new_extruder_id := extruder_stack_id_map e
        let new_id := new_extruder_id ++ "_current_settings".toList
        { c with name := new_id,
                 metadata := icSetMetaDataEntry
                   (icSetMetaDataEntry c.metadata "id" new_id) "extruder" new_extruder_id }
      else c
    | none => c
  let fireMach := truthyId (c1.metadata.lookup "machine")
  let c2 := match c1.metadata.lookup "machine" with
    | some m =>
      if m ≠ [] then
        let new_machine_id := newId m
        let new_id := new_machine_id ++ "_current_settings".toList
        { c1 with name := new_id,
                  metadata := icSetMetaDataEntry
                    (icSetMetaDataEntry c1.metadata "id" new_id) "machine" new_machine_id }
      else c1
    | none => c1
  (if fireExt then [c2] else []) ++ (if fireMach then [c2] else [])

/-- The user-profile branch of the instance-container loop (lines
560–590): given the machine resolution strategy, the live registry record
with the imported identity (if any) and the deserialized import, returns
the post-merge state of the live record and the containers appended to
`containers_to_add`. -/
def mergeUserContainer (machineStrategy : Option String)
    (user_containers : Option ICModel) (imported : ICModel)
    (extruder_stack_id_map : Id → Id) (newId : Id → Id) :
    Option ICModel × List ICModel :=
  match user_containers with
  | none => (none, [imported])
  | some live =>
    if machineStrategy = some "override" ∨ machineStrategy = none then
      (some { icDeserialize live imported with dirty := true }, [])
    else if machineStrategy = some "new" then
      (some live, mergeUserNewStrategy imported extruder_stack_id_map newId)
    else (some live, [])

/-- C10: a live user profile merged under an unset (`None`) machine
strategy is treated exactly as under `override`: the live record is
overwritten in place from the imported content, keeps its identity, is
marked dirty, and nothing is appended to `containers_to_add`. -/
theorem user_profile_none_strategy_is_override (live imported : ICModel)
    (extruder_stack_id_map : Id → Id) (newId : Id → Id) :
    mergeUserContainer none (some live) imported extruder_stack_id_map newId =
      mergeUserContainer (some "override") (some live) imported
        extruder_stack_id_map newId ∧
    mergeUserContainer none (some live) imported extruder_stack_id_map newId =
      (some { id := live.id, name := imported.name, metadata := imported.metadata,
              content := imported.content, dirty := true }, []) := by
  constructor
  · rfl
  · rfl

/-!
## The write pass of `read` and its rollback (lines 407–778)

An identity-level model of the write pass: the registry is the list of
identities of the records it holds, in insertion order. Container
contents, in-place overwrites and the stack slot surgery do not move
identities in or out of the registry and are outside this model, as are
the two external helpers that mutate the registry on their own
(`CuraStackBuilder.createDefinitionChangesContainer`, line 702, and
`addExtruderStackForSingleExtrusionMachine`, line 761).

A `FailPoint` pins where an exception interrupts the pass:
`atGlobalStackBlock` at the start of the guarded global-stack block
(line 659), `atExtruderBlock` at the start of the guarded extruder block
(line 713), after the global stack (under strategy `new`) was added.
-/

inductive FailPoint
  | noFail
  | atGlobalStackBlock
  | atExtruderBlock
deriving DecidableEq

structure WorkspaceBundle where
  definitionFiles : List Id
  materialFiles : List Id
  userFiles : List ICModel
  changesFiles : List (Id × String)
  otherInstanceFiles : List Id
  globalStackId : Id
  extruderStackFileIds : List Id
deriving DecidableEq

structure ReadResult where
  registry : List Id
  success : Bool
deriving DecidableEq

/-- The definition loop (lines 480–489): each definition file whose
identity has no live record is added to the registry directly — not
through `containers_to_add`, so never recorded in `containers_added`. -/
def addDefinitionContainers (files : List Id) (registry : List Id) : List Id :=
  files.foldl (fun reg d => if d ∈ reg then reg else reg ++ [d]) registry

/-- `extruder_stack_id_map` (lines 457–473): under machine strategy `new`
an extruder file identity that already has a live stack is remapped to a
freshly minted identity, otherwise kept. -/
def extruderStackIdMap (strategy : Option String) (registry : List Id)
    (newId : Id → Id) (oldId : Id) : Id :=
  if strategy = some "new" ∧ oldId ∈ registry then newId oldId else oldId

/-- `global_stack_id_new` (lines 451–462). -/
def globalStackIdNew (strategy : Option String) (registry : List Id)
    (newId : Id → Id) (gid : Id) : Id :=
  if strategy = some "new" ∧ gid ∈ registry then newId gid else gid

/-- Identities the material loop (lines 497–523) appends to
`containers_to_add`: absent materials as-is; present, non-read-only ones
under strategy `new` under a minted identity (`override` overwrites in
place and adds nothing). -/
def materialIdsToAdd (registry : List Id) (strategy : Option String)
    (readOnly : Id → Bool) (newId : Id → Id) (files : List Id) : List Id :=
  files.foldl (fun toAdd m =>
    if m ∈ registry then
      if readOnly m = false ∧ strategy = some "new" then toAdd ++ [newId m]
      else toAdd
    else toAdd ++ [m]) []

/-- Identities the user branch (lines 560–590) appends: an absent user
profile as-is; a present one only under machine strategy `new`, appended
once per truthy `extruder`/`machine` metadata entry, under its original
registry identity (`override` and `None` overwrite in place). -/
def userIdsToAdd (registry : List Id) (machineStrategy : Option String)
    (files : List ICModel) : List Id :=
  files.foldl (fun toAdd c =>
    if c.id ∈ registry then
      if machineStrategy = some "new" then
        toAdd ++
          (if truthyId (c.metadata.lookup "extruder") then [c.id] else []) ++
          (if truthyId (c.metadata.lookup "machine") then [c.id] else [])
      else toAdd
    else toAdd ++ [c.id]) []

/-- Identities the `quality_changes`/`definition_changes` branch (lines
591–634) appends: absent profiles as-is; present ones under strategy
`new` under a minted identity; `override` overwrites in place and `None`
does nothing. -/
def changesIdsToAdd (registry : List Id) (strategies : String → Option String)
    (newId : Id → Id) (files : List (Id × String)) : List Id :=
  files.foldl (fun toAdd f =>
    if f.1 ∈ registry then
      if strategies f.2 = some "new" then toAdd ++ [newId f.1] else toAdd
    else toAdd ++ [f.1]) []

/-- Identities the residual instance branch (lines 641–644) appends:
files with no live record. -/
def otherInstanceIdsToAdd (registry : List Id) (files : List Id) : List Id :=
  files.foldl (fun toAdd f => if f ∈ registry then toAdd else toAdd ++ [f]) []

/-- Everything the loops put into `containers_to_add` before the batch
add of lines 650–653 (grouped by kind; the batch is order-insensitive for
the registry's identity set). -/
def containersToAdd (b : WorkspaceBundle) (strategies : String → Option String)
    (registry : List Id) (readOnly : Id → Bool) (newId : Id → Id) : List Id :=
  materialIdsToAdd registry (strategies "material") readOnly newId b.materialFiles ++
  userIdsToAdd registry (strategies "machine") b.userFiles ++
  changesIdsToAdd registry strategies newId b.changesFiles ++
  otherInstanceIdsToAdd registry b.otherInstanceFiles

/-- The rollback of the two `except` blocks (lines 705–710 and 773–778):
`for container in containers_added: removeContainer(container.getId())`. -/
def rollbackContainers (registry : List Id) (containers_added : List Id) : List Id :=
  containers_added.foldl (fun reg cid => reg.filter (fun x => x ≠ cid)) registry

/-- The write pass of `read` at the registry-identity level: definitions
added directly (untracked), the batch add of `containers_to_add` (each
batch-added record also recorded in `containers_added`), the global stack
added and tracked under strategy `new`, then the extruder stacks; an
exception at a `FailPoint` triggers the rollback of `containers_added`
and a failure return. -/
def readWritePass (b : WorkspaceBundle) (strategies : String → Option String)
    (registry0 : List Id) (readOnly : Id → Bool) (newId : Id → Id)
    (fail : FailPoint) : ReadResult :=
  let gidNew := globalStackIdNew (strategies "machine") registry0 newId b.globalStackId
  let reg1 := addDefinitionContainers b.definitionFiles registry0
  let toAdd := containersToAdd b strategies reg1 readOnly newId
  let reg2 := reg1 ++ toAdd
  match fail with
  | FailPoint.atGlobalStackBlock => ⟨rollbackContainers reg2 toAdd, false⟩
  | FailPoint.atExtruderBlock =>
    let reg3 := if strategies "machine" = some "new" then reg2 ++ [gidNew] else reg2
    let added3 := if strategies "machine" = some "new" then toAdd ++ [gidNew] else toAdd
    ⟨rollbackContainers reg3 added3, false⟩
  | FailPoint.noFail =>
    let reg3 := if strategies "machine" = some "new" then reg2 ++ [gidNew] else reg2
    let reg4 := if strategies "machine" = some "new" then
        reg3 ++ b.extruderStackFileIds.map
          (extruderStackIdMap (strategies "machine") registry0 newId)
      else reg3
    ⟨reg4, true⟩

/-- The contents of `containers_added` at the moment each fail point's
rollback runs. -/
def containersAddedAt (b : WorkspaceBundle) (strategies : String → Option String)
    (registry0 : List Id) (readOnly : Id → Bool) (newId : Id → Id) :
    FailPoint → List Id
  | FailPoint.atGlobalStackBlock =>
    containersToAdd b strategies (addDefinitionContainers b.definitionFiles registry0)
      readOnly newId
  | FailPoint.atExtruderBlock =>
    (containersToAdd b strategies (addDefinitionContainers b.definitionFiles registry0)
      readOnly newId) ++
    (if strategies "machine" = some "new" then
      [globalStackIdNew (strategies "machine") registry0 newId b.globalStackId]
    else [])
  | FailPoint.noFail => []

/-- Membership after the rollback loop: still present iff present before
and not among the removed identities. -/
theorem mem_rollbackContainers (added : List Id) (registry : List Id) (x : Id) :
    x ∈ rollbackContainers registry added ↔ x ∈ registry ∧ x ∉ added := by
  induction added generalizing registry with
  | nil => simp [rollbackContainers]
  | cons a rest ih =>
    show x ∈ rollbackContainers (registry.filter (fun y => y ≠ a)) rest ↔ _
    rw [ih]
    simp only [List.mem_filter, decide_eq_true_eq, List.mem_cons]
    constructor
    · rintro ⟨⟨hx, hxa⟩, hrest⟩
      exact ⟨hx, by rintro (rfl | h) <;> [exact hxa rfl; exact hrest h]⟩
    · rintro ⟨hx, hno⟩
      exact ⟨⟨hx, fun hc => hno (Or.inl hc)⟩, fun hc => hno (Or.inr hc)⟩

/-- C1 counterexample: a bundle holding one definition container absent
from the (empty) registry; the write pass adds it directly to the
registry and then fails in the global-stack block. The rollback removes
only `containers_added`, so after the failure the registry still holds
the definition added by this invocation and differs from its pre-import
state. -/
theorem read_rollback_leaves_added_definition :
    ((readWritePass
        { definitionFiles := ["custom_def".toList], materialFiles := [],
          userFiles := [], changesFiles := [], otherInstanceFiles := [],
          globalStackId := "machine1".toList, extruderStackFileIds := [] }
        (fun _ => some "override") [] (fun _ => false) id
        FailPoint.atGlobalStackBlock).success = false) ∧
    ("custom_def".toList ∈ (readWritePass
        { definitionFiles := ["custom_def".toList], materialFiles := [],
          userFiles := [], changesFiles := [], otherInstanceFiles := [],
          globalStackId := "machine1".toList, extruderStackFileIds := [] }
        (fun _ => some "override") [] (fun _ => false) id
        FailPoint.atGlobalStackBlock).registry) ∧
    ("custom_def".toList ∉ ([] : List Id)) ∧
    ((readWritePass
        { definitionFiles := ["custom_def".toList], materialFiles := [],
          userFiles := [], changesFiles := [], otherInstanceFiles := [],
          globalStackId := "machine1".toList, extruderStackFileIds := [] }
        (fun _ => some "override") [] (fun _ => false) id
        FailPoint.atGlobalStackBlock).registry ≠ ([] : List Id)) := by
  refine ⟨rfl, ?_, ?_, ?_⟩
  · decide
  · decide
  · decide

/-- C1 (amended): when the write pass fails inside either guarded block,
every record in `containers_added` at that moment (the batch-added
materials and instance profiles, plus a stack added before the failure)
is removed from the registry before `read` returns failure — but records
the invocation added outside that tracking, such as the directly-added
definition containers, stay in the registry. -/
theorem read_rollback_removes_tracked (b : WorkspaceBundle)
    (strategies : String → Option String) (registry0 : List Id)
    (readOnly : Id → Bool) (newId : Id → Id) (fail : FailPoint)
    (hfail : fail ≠ FailPoint.noFail) :
    ((readWritePass b strategies registry0 readOnly newId fail).success = false) ∧
    (∀ x ∈ containersAddedAt b strategies registry0 readOnly newId fail,
      x ∉ (readWritePass b strategies registry0 readOnly newId fail).registry) ∧
    (∀ x ∈ addDefinitionContainers b.definitionFiles registry0,
      x ∉ containersAddedAt b strategies registry0 readOnly newId fail →
        x ∈ (readWritePass b strategies registry0 readOnly newId fail).registry) := by
  cases fail with
  | noFail => exact absurd rfl hfail
  | atGlobalStackBlock =>
    refine ⟨rfl, ?_, ?_⟩
    · intro x hx hmem
      rw [readWritePass] at hmem
      rw [mem_rollbackContainers] at hmem
      exact hmem.2 hx
    · intro x hx hnot
      rw [readWritePass]
      rw [mem_rollbackContainers]
      exact ⟨List.mem_append.mpr (Or.inl hx), hnot⟩
  | atExtruderBlock =>
    refine ⟨rfl, ?_, ?_⟩
    · intro x hx hmem
      rw [readWritePass] at hmem
      rw [mem_rollbackContainers] at hmem
      apply hmem.2
      rcases List.mem_append.mp hx with h1 | h1
      · by_cases hnew : strategies "machine" = some "new"
        · simp only [hnew, if_pos]
          exact List.mem_append.mpr (Or.inl h1)
        · simp only [hnew, if_neg, if_false]
          exact h1
      · by_cases hnew : strategies "machine" = some "new"
        · simp only [hnew, if_pos, ite_true] at h1 ⊢
          exact List.mem_append.mpr (Or.inr h1)
        · simp only [hnew, if_neg, if_false] at h1
          cases h1
    · intro x hx hnot
      rw [readWritePass]
      rw [mem_rollbackContainers]
      constructor
      · by_cases hnew : strategies "machine" = some "new"
        · simp only [hnew, ite_true]
          exact List.mem_append.mpr (Or.inl (List.mem_append.mpr (Or.inl hx)))
        · simp only [hnew, ite_false]
          exact List.mem_append.mpr (Or.inl hx)
      · intro hc
        apply hnot
        by_cases hnew : strategies "machine" = some "new"
        · simp only [hnew, ite_true] at hc
          rw [containersAddedAt]
          simp only [hnew, ite_true]
          exact hc
        · simp only [hnew, ite_false] at hc
          rw [containersAddedAt]
          simp only [hnew, ite_false]
          exact List.mem_append.mpr (Or.inl hc)

/-- Witness for C1 (amended): a bundle with one fresh definition and one
fresh material failing in the global-stack block: the batch-added
material is rolled back, the directly-added definition survives. -/
theorem read_rollback_removes_tracked_witness :
    ((readWritePass
        { definitionFiles := ["custom_def".toList], materialFiles := ["generic_pla".toList],
          userFiles := [], changesFiles := [], otherInstanceFiles := [],
          globalStackId := "machine1".toList, extruderStackFileIds := [] }
        (fun _ => some "override") [] (fun _ => false) id
        FailPoint.atGlobalStackBlock).success = false) ∧
    ("generic_pla".toList ∉ (readWritePass
        { definitionFiles := ["custom_def".toList], materialFiles := ["generic_pla".toList],
          userFiles := [], changesFiles := [], otherInstanceFiles := [],
          globalStackId := "machine1".toList, extruderStackFileIds := [] }
        (fun _ => some "override") [] (fun _ => false) id
        FailPoint.atGlobalStackBlock).registry) ∧
    ("custom_def".toList ∈ (readWritePass
        { definitionFiles := ["custom_def".toList], materialFiles := ["generic_pla".toList],
          userFiles := [], changesFiles := [], otherInstanceFiles := [],
          globalStackId := "machine1".toList, extruderStackFileIds := [] }
        (fun _ => some "override") [] (fun _ => false) id
        FailPoint.atGlobalStackBlock).registry) := by
  have h := read_rollback_removes_tracked
    { definitionFiles := ["custom_def".toList], materialFiles := ["generic_pla".toList],
      userFiles := [], changesFiles := [], otherInstanceFiles := [],
      globalStackId := "machine1".toList, extruderStackFileIds := [] }
    (fun _ => some "override") [] (fun _ => false) id
    FailPoint.atGlobalStackBlock (by decide)
  exact ⟨h.1, h.2.1 "generic_pla".toList (by decide), h.2.2 "custom_def".toList
    (by decide) (by decide)⟩

end ThreeMF
